import Mathlib

/-!
# terraform-provider-sodium: the `encrypted_item` data source and resource

A shallow embedding of `internal/provider/encrypted_item_data_source.go` and
`internal/provider/encrypted_item_resource.go`.  A Go `string` / `[]byte` is a list of
bytes; a fixed-size array `[n]byte` is a list together with a proof of its length.
The framework response of an operation is the pair of the state it wrote with
`resp.State.Set` (if it did) and the diagnostics it appended.
-/

namespace Sodium

/-- One byte (`uint8`). -/
abbrev Byte := Fin 256

/-- A Go fixed-size array `[n]byte`. -/
abbrev FixedBytes (n : Nat) := { l : List Byte // l.length = n }

/-- The bytes of an ASCII string literal (`[]byte(s)` for a string of ASCII characters). -/
def asciiBytes (s : String) : List Byte := s.toList.map (fun c => Fin.ofNat c.toNat)

/-! ## `encoding/base64`, `StdEncoding` -/

/-- Modelled from the spec: section 6 fixes the text transport encoding as standard base64
(RFC 4648, with padding); the source calls Go's `base64.StdEncoding`, which is not part of
the repository. This is its 64-character alphabet `encodeStd`. -/
def encodeStd : List Byte :=
  asciiBytes "ABCDEFGHIJKLMNOPQRSTUVWXYZabcdefghijklmnopqrstuvwxyz0123456789+/"

/-- Modelled from the spec: the table lookup `enc.encode[i]` of the standard alphabet. -/
def stdChar (i : Nat) : Byte := encodeStd.getD i 0

/-- Modelled from the spec: the reverse table `enc.decodeMap` of the standard alphabet, built
as in the library's `NewEncoding`: `0xff` everywhere except `decodeMap[encodeStd[i]] = i`. -/
def decodeMap (c : Byte) : Nat :=
  if encodeStd.indexOf c < 64 then encodeStd.indexOf c else 0xff

/-- The padding character `=` (`StdPadding`). -/
def padChar : Byte := 61

/-- Modelled from the spec: `base64.StdEncoding.EncodeToString` (section 4.1 `encode`), after the
library routine `Encoding.Encode`: every three bytes give four characters, a remainder of
one or two bytes gives two or three characters followed by `=` padding. -/
def EncodeToString : List Byte → List Byte
  | b0 :: b1 :: b2 :: rest =>
    let val := b0.val <<< 16 ||| b1.val <<< 8 ||| b2.val
    stdChar (val >>> 18 &&& 0x3F) :: stdChar (val >>> 12 &&& 0x3F) ::
      stdChar (val >>> 6 &&& 0x3F) :: stdChar (val &&& 0x3F) :: EncodeToString rest
  | [b0, b1] =>
    let val := b0.val <<< 16 ||| b1.val <<< 8
    [stdChar (val >>> 18 &&& 0x3F), stdChar (val >>> 12 &&& 0x3F),
      stdChar (val >>> 6 &&& 0x3F), padChar]
  | [b0] =>
    let val := b0.val <<< 16
    [stdChar (val >>> 18 &&& 0x3F), stdChar (val >>> 12 &&& 0x3F), padChar, padChar]
  | [] => []

/-- The library's "skip over newlines" loop:
`for si < len(src) && (src[si] == '\n' || src[si] == '\r') { si++ }`;
returns the rest of the input and the new index. -/
def skipNewlines : List Byte → Nat → List Byte × Nat
  | [], si => ([], si)
  | c :: rest, si =>
    if c = 10 ∨ c = 13 then skipNewlines rest (si + 1) else (c :: rest, si)

/-- The end of the library's `decodeQuantum`: "Convert 4x 6bit source bytes into 3 bytes";
of the three bytes the first `dlen - 1` are output (`StdEncoding` is not strict, so the unused
low bits are not inspected). -/
def quantumBytes (d0 d1 d2 d3 : Nat) (dlen : Nat) : List Byte :=
  let val := d0 <<< 18 ||| d1 <<< 12 ||| d2 <<< 6 ||| d3
  ([Fin.ofNat (val >>> 16), Fin.ofNat (val >>> 8), Fin.ofNat val] : List Byte).take (dlen - 1)

/-- Modelled from the spec: the decoding loop of `base64.StdEncoding` (section 4.1 `decode`),
after the library routines `Encoding.Decode` and `decodeQuantum` (the 8- and 4-character fast
paths of `Decode` compute the same function and are not separated out). The arguments are the
input still to be read, its index `si` in the whole text, and the 6-bit values `dbuf` of the
quantum read so far. The result is the bytes decoded from here on and the offset of a
`CorruptInputError`, if any: as in the library, bytes decoded before the error are still
returned. `\r` and `\n` are skipped wherever they stand. -/
def decodeLoop : List Byte → Nat → List Nat → List Byte × Option Nat
  | [], si, dbuf =>
    match dbuf with
    | [] => ([], none)
    | _ => ([], some (si - dbuf.length))
  | c :: rest, si, dbuf =>
    if decodeMap c ≠ 0xff then
      match dbuf with
      | [d0, d1, d2] =>
        let r := decodeLoop rest (si + 1) []
        (quantumBytes d0 d1 d2 (decodeMap c) 4 ++ r.1, r.2)
      | _ => decodeLoop rest (si + 1) (dbuf ++ [decodeMap c])
    else if c = 10 ∨ c = 13 then decodeLoop rest (si + 1) dbuf
    else if c ≠ padChar then ([], some si)
    else
      match dbuf with
      | [d0, d1] =>
        match skipNewlines rest (si + 1) with
        | ([], si2) => ([], some si2)
        | (c2 :: rest2, si2) =>
          if c2 ≠ padChar then ([], some (si2 - 1))
          else
            match skipNewlines rest2 (si2 + 1) with
            | ([], _) => (quantumBytes d0 d1 0 0 2, none)
            | (_ :: _, si3) => (quantumBytes d0 d1 0 0 2, some si3)
      | [d0, d1, d2] =>
        match skipNewlines rest (si + 1) with
        | ([], _) => (quantumBytes d0 d1 d2 0 3, none)
        | (_ :: _, si3) => (quantumBytes d0 d1 d2 0 3, some si3)
      | _ => ([], some si)

/-- Modelled from the spec: `base64.StdEncoding.DecodeString`: the decoded bytes `dbuf[:n]`
and the error, `none` for `nil` and `some off` for `CorruptInputError(off)`. -/
def DecodeString (s : List Byte) : List Byte × Option Nat := decodeLoop s 0 []

/-! ## `encoding/hex` -/

/-- The table `hextable` of `encoding/hex`. -/
def hextable : List Byte := asciiBytes "0123456789abcdef"

/-- Modelled from the spec: `hex.EncodeToString` (section 6: the digest is rendered as
lowercase hexadecimal), after the library routine `hex.Encode`: two characters per byte,
`hextable[v>>4]` and `hextable[v&0x0f]`. -/
def hexEncodeToString : List Byte → List Byte
  | [] => []
  | v :: rest =>
    hextable.getD (v.val >>> 4) 0 :: hextable.getD (v.val &&& 0x0f) 0 :: hexEncodeToString rest

/-! ## `crypto/sha1` -/

/-- The 32-bit rotation `bits.RotateLeft32`. -/
def rotateLeft32 (x k : Nat) : Nat := (x <<< k ||| x >>> (32 - k)) % 2 ^ 32

/-- The five chaining words `h[0..4]` of a SHA-1 digest state. -/
structure Sha1State where
  h0 : Nat
  h1 : Nat
  h2 : Nat
  h3 : Nat
  h4 : Nat
deriving DecidableEq, Repr

/-- The initial chaining values `init0 .. init4`. -/
def sha1Init : Sha1State :=
  { h0 := 0x67452301, h1 := 0xEFCDAB89, h2 := 0x98BADCFE, h3 := 0x10325476, h4 := 0xC3D2E1F0 }

/-- The big-endian 32-bit word at offset `j` of `p`. -/
def beUint32 (p : List Byte) (j : Nat) : Nat :=
  (p.getD j 0).val <<< 24 ||| (p.getD (j + 1) 0).val <<< 16 |||
    (p.getD (j + 2) 0).val <<< 8 ||| (p.getD (j + 3) 0).val

/-- The working variables of one block: the 16-word circular schedule `w` and `a .. e`. -/
structure Sha1Work where
  w : List Nat
  a : Nat
  b : Nat
  c : Nat
  d : Nat
  e : Nat

/-- Round `i` (0 to 79) of the library's `blockGeneric`: from round 16 on the schedule word
`w[i&0xf]` is first replaced, then `a .. e` are rotated with the round function and constant
of the round's group of twenty. -/
def sha1Round (s : Sha1Work) (i : Nat) : Sha1Work :=
  let w :=
    if i < 16 then s.w
    else
      let tmp := s.w.getD ((i - 3) &&& 0xf) 0 ^^^ s.w.getD ((i - 8) &&& 0xf) 0 ^^^
        s.w.getD ((i - 14) &&& 0xf) 0 ^^^ s.w.getD (i &&& 0xf) 0
      s.w.set (i &&& 0xf) (rotateLeft32 tmp 1)
  let f :=
    if i < 20 then (s.b &&& s.c) ||| ((s.b ^^^ 0xFFFFFFFF) &&& s.d)
    else if i < 40 then s.b ^^^ s.c ^^^ s.d
    else if i < 60 then ((s.b ||| s.c) &&& s.d) ||| (s.b &&& s.c)
    else s.b ^^^ s.c ^^^ s.d
  let k :=
    if i < 20 then 0x5A827999
    else if i < 40 then 0x6ED9EBA1
    else if i < 60 then 0x8F1BBCDC
    else 0xCA62C1D6
  let t := (rotateLeft32 s.a 5 + f + s.e + w.getD (i &&& 0xf) 0 + k) % 2 ^ 32
  { w := w, a := t, b := s.a, c := rotateLeft32 s.b 30, d := s.c, e := s.d }

/-- One 64-byte chunk of `blockGeneric`: load sixteen big-endian words, run the eighty
rounds, add the result to the chaining words (mod 2^32). -/
def sha1Block (h : Sha1State) (p : List Byte) : Sha1State :=
  let w := (List.range 16).map (fun i => beUint32 p (i * 4))
  let s := (List.range 80).foldl sha1Round
    { w := w, a := h.h0, b := h.h1, c := h.h2, d := h.h3, e := h.h4 }
  { h0 := (h.h0 + s.a) % 2 ^ 32, h1 := (h.h1 + s.b) % 2 ^ 32, h2 := (h.h2 + s.c) % 2 ^ 32,
    h3 := (h.h3 + s.d) % 2 ^ 32, h4 := (h.h4 + s.e) % 2 ^ 32 }

/-- The big-endian bytes of a 32-bit word (`BEPutUint32`). -/
def bePutUint32 (x : Nat) : List Byte :=
  [Fin.ofNat (x >>> 24), Fin.ofNat (x >>> 16), Fin.ofNat (x >>> 8), Fin.ofNat x]

/-- The big-endian bytes of a 64-bit word (`BEPutUint64`). -/
def bePutUint64 (x : Nat) : List Byte :=
  bePutUint32 (x >>> 32) ++ bePutUint32 x

/-- The padding of `checkSum`: a `0x80` byte, zero bytes up to 56 mod 64, then the length
in bits as a 64-bit big-endian word. -/
def sha1Padding (len : Nat) : List Byte :=
  let t := if len % 64 < 56 then 56 - len % 64 else 64 + 56 - len % 64
  ((0x80 : Byte) :: List.replicate (t - 1) 0) ++ bePutUint64 ((len <<< 3) % 2 ^ 64)

/-- Modelled from the spec: the fingerprint digest (section 6: a fixed-length one-way hash of
160 bits) is Go's `sha1.Sum`, which is not part of the repository; this is SHA-1 as the
library computes it: pad, process the 64-byte chunks in order, output the five chaining
words big-endian. The result is the library's `[20]byte`. -/
def sha1Sum (data : List Byte) : List Byte :=
  let p := data ++ sha1Padding data.length
  let h := (List.range (p.length / 64)).foldl (fun h k => sha1Block h (p.drop (64 * k))) sha1Init
  bePutUint32 h.h0 ++ bePutUint32 h.h1 ++ bePutUint32 h.h2 ++ bePutUint32 h.h3 ++
    bePutUint32 h.h4

/-! ## `golang.org/x/crypto/nacl/box` -/

/-- The cryptographic primitives under `box.SealAnonymous`, taken as parameters: Curve25519
base-point multiplication (`curve25519.ScalarBaseMult`), the shared-key derivation
(`box.Precompute`), the 24-byte BLAKE2b hash of `sealNonce`, the XSalsa20 key stream (byte
`i` of the stream for a key and a nonce) and the Poly1305 authenticator (`poly1305.Sum`).
The result types are the fixed-size arrays of the library's signatures. -/
structure BoxPrimitives where
  scalarBaseMult : FixedBytes 32 → FixedBytes 32
  precompute : FixedBytes 32 → FixedBytes 32 → FixedBytes 32
  blake2b24 : List Byte → FixedBytes 24
  keyStream : FixedBytes 32 → FixedBytes 24 → Nat → Byte
  poly1305Sum : List Byte → FixedBytes 32 → FixedBytes 16

/-- The outcome of `io.ReadFull(rand, privateKey[:])` on the process random source during one call:
the 32 bytes read, or the reader's error. -/
abbrev RandRead := Except String (FixedBytes 32)

/-- The loop `out[i] = stream[i] ^ x` of `secretbox.Seal` and `salsa.XORKeyStream`: the message
XORed byte by byte with the key stream from position `i` on. -/
def xorKeyStream (ks : Nat → Byte) : List Byte → Nat → List Byte
  | [], _ => []
  | x :: rest, i => Fin.ofNat ((ks i).val ^^^ x.val) :: xorKeyStream ks rest (i + 1)

/-- Modelled from the spec: `secretbox.Seal` (section 6: the 16-byte authentication tag of the
sealed-box overhead), which is not part of the repository: the first 32 bytes of the key stream
are the Poly1305 key, the message is XORed with the stream from byte 32 on, and the result is
the 16-byte tag of the ciphertext followed by the ciphertext. -/
def secretboxSeal (P : BoxPrimitives) (message : List Byte) (nonce : FixedBytes 24)
    (key : FixedBytes 32) : List Byte :=
  let poly1305Key : FixedBytes 32 :=
    ⟨(List.range 32).map (P.keyStream key nonce), by simp⟩
  let ciphertext := xorKeyStream (P.keyStream key nonce) message 32
  (P.poly1305Sum ciphertext poly1305Key).val ++ ciphertext

/-- Modelled from the spec: `box.SealAnonymous(nil, message, recipient, nil)` (section 4.2 `seal`,
section 6: overhead of a 32-byte ephemeral public key and a 16-byte tag), which is not part of
the repository: an ephemeral key pair is generated from the random source, the nonce is the
hash of the two public keys, and the output is the ephemeral public key followed by the
secret box of the message under the shared key. When the random source fails the result is
`nil` and the error, as in the library. -/
def SealAnonymous (P : BoxPrimitives) (rand : RandRead) (message : List Byte)
    (recipient : FixedBytes 32) : List Byte × Option String :=
  match rand with
  | .error e => ([], some e)
  | .ok ephemeralPriv =>
    let ephemeralPub := P.scalarBaseMult ephemeralPriv
    let nonce := P.blake2b24 (ephemeralPub.val ++ recipient.val)
    (ephemeralPub.val ++ secretboxSeal P message nonce (P.precompute recipient ephemeralPriv),
      none)

/-! ## terraform-plugin-framework values -/

/-- A framework `types.String`: `none` is the null (or unknown) value. -/
abbrev TfString := Option (List Byte)

/-- The method `types.String.ValueString`: the known value, the empty string for null. -/
def TfString.ValueString (s : TfString) : List Byte := s.getD []

/-- The constructor `types.StringValue`. -/
def StringValue (s : List Byte) : TfString := some s

/-- One entry of `diag.Diagnostics` as added by `AddError(summary, detail)`. -/
structure Diagnostic where
  summary : String
  detail : String
deriving DecidableEq, Repr

/-- The method `Diagnostics.AddError`: append unless an equal diagnostic is already present. -/
def AddError (diags : List Diagnostic) (summary detail : String) : List Diagnostic :=
  if (⟨summary, detail⟩ : Diagnostic) ∈ diags then diags else diags ++ [⟨summary, detail⟩]

/-- The text of a `base64.CorruptInputError`. -/
def corruptInputError (off : Nat) : String :=
  "illegal base64 data at input byte " ++ toString off

/-- What an operation leaves in its response: the value it passed to `resp.State.Set`
(`none` when it returned before the call) and the diagnostics it appended. -/
structure Response (M : Type) where
  State : Option M
  Diagnostics : List Diagnostic

/-- The Go builtin `copy(dst, src)`: the first `min(len(dst), len(src))` elements of `dst`
are overwritten by those of `src`; the result is the new content of `dst`. -/
def copy (dst src : List Byte) : List Byte := src.take dst.length ++ dst.drop src.length

/-- The statements `var pkBytes [32]byte; copy(pkBytes[:], key)` of both `Read` and
`computeState`: the zero-initialised array after the copy. -/
def pkBytesOf (key : List Byte) : FixedBytes 32 :=
  ⟨copy (List.replicate 32 0) key, by
    simp only [copy, List.length_append, List.length_take, List.length_drop,
      List.length_replicate]
    omega⟩

/-! ## `encrypted_item_data_source.go` -/

/-- The data source model `EncryptedItemDataSourceModel`. -/
structure EncryptedItemDataSourceModel where
  PublicKeyBase64 : TfString
  ContentBase64 : TfString
  EncryptedValueBase64 : TfString
  ContentChecksum : TfString
  Id : TfString
deriving DecidableEq, Repr

/-- The method `EncryptedItemDataSource.Read`, from the point where `req.Config.Get` has filled
`data` without error. No error branch returns: each one only appends a diagnostic. -/
def EncryptedItemDataSource.Read (P : BoxPrimitives) (rand : RandRead)
    (data : EncryptedItemDataSourceModel) : Response EncryptedItemDataSourceModel :=
  let diags : List Diagnostic := []
  let (secret, err) := DecodeString data.ContentBase64.ValueString
  let diags :=
    match err with
    | some off =>
      AddError diags "Decode Error"
        ("Unable to decode content_base64, got error: " ++ corruptInputError off)
    | none => diags
  let secretBytes := secret
  -- Getting public key from input
  let (key, err) := DecodeString data.PublicKeyBase64.ValueString
  let diags :=
    match err with
    | some off =>
      AddError diags "Decode Error"
        ("Failed to decode base64 public_key_base64, got error: " ++ corruptInputError off)
    | none => diags
  let pkBytes := pkBytesOf key
  -- Encrypting string with given pubKey
  let (enc, err) := SealAnonymous P rand secretBytes pkBytes
  let diags :=
    match err with
    | some e => AddError diags "Encrypt Error" ("Failed to encrypt, got error: " ++ e)
    | none => diags
  -- Encoding result to base64
  let encEnc := EncodeToString enc
  let data := { data with EncryptedValueBase64 := StringValue encEnc }
  -- The ID is an encoding of the output value
  let outChecksum := sha1Sum encEnc
  let data := { data with Id := StringValue (hexEncodeToString outChecksum) }
  -- The checksum is an encoding of the input value
  let inChecksum := sha1Sum data.ContentBase64.ValueString
  let data := { data with ContentChecksum := StringValue (hexEncodeToString inChecksum) }
  -- Save data into Terraform state
  { State := some data, Diagnostics := diags }

/-! ## `encrypted_item_resource.go` -/

/-- The resource model `EncryptedItemResourceModel`. -/
structure EncryptedItemResourceModel where
  PublicKeyBase64 : TfString
  ContentBase64 : TfString
  EncryptedValueBase64 : TfString
  Id : TfString
deriving DecidableEq, Repr

/-- The function `computeState(data, diag)`: the model and the diagnostics after the call. -/
def computeState (P : BoxPrimitives) (rand : RandRead) (data : EncryptedItemResourceModel)
    (diag : List Diagnostic) : EncryptedItemResourceModel × List Diagnostic :=
  let (secret, err) := DecodeString data.ContentBase64.ValueString
  let diag :=
    match err with
    | some off =>
      AddError diag "Decode Error"
        ("Unable to decode content_base64, got error: " ++ corruptInputError off)
    | none => diag
  let secretBytes := secret
  -- Getting public key from input
  let (key, err) := DecodeString data.PublicKeyBase64.ValueString
  let diag :=
    match err with
    | some off =>
      AddError diag "Decode Error"
        ("Failed to decode base64 public_key_base64, got error: " ++ corruptInputError off)
    | none => diag
  let pkBytes := pkBytesOf key
  -- Encrypting string with given pubKey
  let (enc, err) := SealAnonymous P rand secretBytes pkBytes
  let diag :=
    match err with
    | some e => AddError diag "Encrypt Error" ("Failed to encrypt, got error: " ++ e)
    | none => diag
  -- Encoding result to base64
  let encEnc := EncodeToString enc
  let data := { data with EncryptedValueBase64 := StringValue encEnc }
  -- The ID is a hash of the input value
  let inChecksum := sha1Sum data.ContentBase64.ValueString
  let data := { data with Id := StringValue (hexEncodeToString inChecksum) }
  (data, diag)

/-- The method `EncryptedItemResource.Create`, from the point where `req.Plan.Get` has filled
`data` without error. -/
def EncryptedItemResource.Create (P : BoxPrimitives) (rand : RandRead)
    (plan : EncryptedItemResourceModel) : Response EncryptedItemResourceModel :=
  let (data, diags) := computeState P rand plan []
  { State := some data, Diagnostics := diags }

/-- The method `EncryptedItemResource.Read`, from the point where `req.State.Get` has filled
`data` without error: the prior state is written back. -/
def EncryptedItemResource.Read (state : EncryptedItemResourceModel) :
    Response EncryptedItemResourceModel :=
  { State := some state, Diagnostics := [] }

/-- The request of `Update`: the planned values and the prior state. -/
structure UpdateRequest where
  Plan : EncryptedItemResourceModel
  State : EncryptedItemResourceModel

/-- The method `EncryptedItemResource.Update`, from the point where `req.Plan.Get` has filled
`data` without error: only `req.Plan` is read. -/
def EncryptedItemResource.Update (P : BoxPrimitives) (rand : RandRead) (req : UpdateRequest) :
    Response EncryptedItemResourceModel :=
  let (data, diags) := computeState P rand req.Plan []
  { State := some data, Diagnostics := diags }

/-! ## Concrete inputs -/

/-- Stand-in primitives for evaluating the model at concrete inputs: the identity for the
scalar multiplication, the recipient key as shared key, a zero nonce, a zero key stream and
a zero tag. They are not the cryptographic functions; no theorem stated for all
primitives depends on them. -/
def plainPrimitives : BoxPrimitives where
  scalarBaseMult := fun k => k
  precompute := fun peer _ => peer
  blake2b24 := fun _ => ⟨List.replicate 24 0, by simp⟩
  keyStream := fun _ _ _ => 0
  poly1305Sum := fun _ _ => ⟨List.replicate 16 0, by simp⟩

/-- A random read that returns 32 bytes all equal to `b`. -/
def constRand (b : Byte) : RandRead := .ok ⟨List.replicate 32 b, by simp⟩

/-- The public key of the acceptance test `TestAccSodiumEncryptedItemDataSource`. -/
def testPublicKeyBase64 : List Byte := asciiBytes "qbQa1k8xeoBnKnzenV/QGTsNiCaGdDS0fjBpVuz1RFI="

/-- The content of the acceptance test: `base64encode("the_secret")`. -/
def testContentBase64 : List Byte := asciiBytes "dGhlX3NlY3JldA=="

/-- The configuration `testAccSodiumEncryptedItemDataSourceConfig` as `req.Config.Get`
delivers it: the two required attributes set, the computed ones null. -/
def testAccSodiumEncryptedItemDataSourceConfig : EncryptedItemDataSourceModel :=
  { PublicKeyBase64 := some testPublicKeyBase64, ContentBase64 := some testContentBase64,
    EncryptedValueBase64 := none, ContentChecksum := none, Id := none }

/-! ## Canonical texts and digits -/

/-- The text holds no `\r` and no `\n`. -/
def noNewlines (t : List Byte) : Prop := ∀ c ∈ t, c ≠ 10 ∧ c ≠ 13

instance (t : List Byte) : Decidable (noNewlines t) := by
  unfold noNewlines; infer_instance

/-- The bits of the last character before the padding that belong to no byte are zero: when
the text ends in `==` the character before it carries four such bits, when it ends in a single
`=` the character before it carries two. -/
def zeroTrailingBits (t : List Byte) : Bool :=
  match t.reverse with
  | p :: q :: c :: _ =>
    if p = padChar then
      if q = padChar then decide (decodeMap c % 16 = 0) else decide (decodeMap q % 4 = 0)
    else true
  | _ => true



/-- A lowercase hexadecimal digit: `0` to `9` or `a` to `f`. -/
def isLowerHex (c : Byte) : Prop := (48 ≤ c.val ∧ c.val ≤ 57) ∨ (97 ≤ c.val ∧ c.val ≤ 102)

instance (c : Byte) : Decidable (isLowerHex c) := by
  unfold isLowerHex; infer_instance

/-! ## Further concrete inputs -/

/-- The resource plan with the inputs of the acceptance test: the two required attributes
set, the computed ones not yet known. -/
def testPlan : EncryptedItemResourceModel :=
  { PublicKeyBase64 := some testPublicKeyBase64, ContentBase64 := some testContentBase64,
    EncryptedValueBase64 := none, Id := none }

/-- The malformed text of the spec's section 8. -/
def malformedContent : List Byte := asciiBytes "not base64 !!"

/-- The test configuration with the malformed text as content. -/
def malformedConfig : EncryptedItemDataSourceModel :=
  { testAccSodiumEncryptedItemDataSourceConfig with ContentBase64 := some malformedContent }

/-- The resource plan with the malformed text as content. -/
def malformedPlan : EncryptedItemResourceModel :=
  { testPlan with ContentBase64 := some malformedContent }

/-- The test configuration with the malformed text as public key. -/
def malformedKeyConfig : EncryptedItemDataSourceModel :=
  { testAccSodiumEncryptedItemDataSourceConfig with PublicKeyBase64 := some malformedContent }

/-- The resource plan with the malformed text as public key. -/
def malformedKeyPlan : EncryptedItemResourceModel :=
  { testPlan with PublicKeyBase64 := some malformedContent }

/-! ## Bit arithmetic -/

theorem or_eq_add_of_dvd {a b : Nat} (i : Nat) (hb : b < 2 ^ i) (ha : 2 ^ i ∣ a) :
    a ||| b = a + b := by
  obtain ⟨k, rfl⟩ := ha
  exact (Nat.mul_add_lt_is_or hb k).symm

theorem and_0x3F (x : Nat) : x &&& 0x3F = x % 64 := Nat.and_pow_two_sub_one_eq_mod x 6

theorem and_0x0f (x : Nat) : x &&& 0x0f = x % 16 := Nat.and_pow_two_sub_one_eq_mod x 4

theorem ofNat_val_eq (x : Nat) (b : Byte) (h : x % 256 = b.val) : (Fin.ofNat x : Byte) = b := by
  apply Fin.ext
  simpa [Fin.ofNat] using h

/-- The 24-bit group of three bytes, as a sum. -/
theorem group3_eq (b0 b1 b2 : Byte) :
    b0.val <<< 16 ||| b1.val <<< 8 ||| b2.val = b0.val * 65536 + b1.val * 256 + b2.val := by
  have h0 := b0.isLt
  have h1 := b1.isLt
  have h2 := b2.isLt
  have e1 : b0.val <<< 16 ||| b1.val <<< 8 = b0.val * 65536 + b1.val * 256 := by
    rw [Nat.shiftLeft_eq, Nat.shiftLeft_eq]
    exact or_eq_add_of_dvd 16 (by omega) (by omega)
  rw [e1]
  exact or_eq_add_of_dvd 8 (by omega) (by omega)

/-- The 24-bit group of four 6-bit values, as a sum. -/
theorem group4_eq (d0 d1 d2 d3 : Nat) (h1 : d1 < 64) (h2 : d2 < 64) (h3 : d3 < 64) :
    d0 <<< 18 ||| d1 <<< 12 ||| d2 <<< 6 ||| d3 = d0 * 262144 + d1 * 4096 + d2 * 64 + d3 := by
  have e1 : d0 <<< 18 ||| d1 <<< 12 = d0 * 262144 + d1 * 4096 := by
    rw [Nat.shiftLeft_eq, Nat.shiftLeft_eq]
    exact or_eq_add_of_dvd 18 (by omega) (by omega)
  have e2 : d0 * 262144 + d1 * 4096 ||| d2 <<< 6 = d0 * 262144 + d1 * 4096 + d2 * 64 := by
    rw [Nat.shiftLeft_eq]
    exact or_eq_add_of_dvd 12 (by omega) (by omega)
  rw [e1, e2]
  exact or_eq_add_of_dvd 6 (by omega) (by omega)

/-- Decoding the four 6-bit values of three bytes gives the three bytes back. -/
theorem quantumBytes_group3 (b0 b1 b2 : Byte) (v : Nat)
    (hv : v = b0.val <<< 16 ||| b1.val <<< 8 ||| b2.val) :
    quantumBytes (v >>> 18 &&& 0x3F) (v >>> 12 &&& 0x3F) (v >>> 6 &&& 0x3F) (v &&& 0x3F) 4
      = [b0, b1, b2] := by
  have h0 := b0.isLt
  have h1 := b1.isLt
  have h2 := b2.isLt
  rw [group3_eq] at hv
  simp only [quantumBytes, and_0x3F, Nat.shiftRight_eq_div_pow]
  rw [group4_eq _ _ _ _ (Nat.mod_lt _ (by norm_num)) (Nat.mod_lt _ (by norm_num))
    (Nat.mod_lt _ (by norm_num))]
  simp only [Nat.reduceSub, List.take_succ_cons, List.take_zero]
  rw [ofNat_val_eq _ b0 (by omega), ofNat_val_eq _ b1 (by omega), ofNat_val_eq _ b2 (by omega)]

/-- Decoding the three 6-bit values of two bytes gives the two bytes back. -/
theorem quantumBytes_group2 (b0 b1 : Byte) (v : Nat) (hv : v = b0.val <<< 16 ||| b1.val <<< 8) :
    quantumBytes (v >>> 18 &&& 0x3F) (v >>> 12 &&& 0x3F) (v >>> 6 &&& 0x3F) 0 3 = [b0, b1] := by
  have h0 := b0.isLt
  have h1 := b1.isLt
  have e : b0.val <<< 16 ||| b1.val <<< 8 = b0.val * 65536 + b1.val * 256 := by
    rw [Nat.shiftLeft_eq, Nat.shiftLeft_eq]
    exact or_eq_add_of_dvd 16 (by omega) (by omega)
  rw [e] at hv
  simp only [quantumBytes, and_0x3F, Nat.shiftRight_eq_div_pow]
  rw [group4_eq _ _ _ _ (Nat.mod_lt _ (by norm_num)) (Nat.mod_lt _ (by norm_num)) (by norm_num)]
  simp only [Nat.reduceSub, List.take_succ_cons, List.take_zero]
  rw [ofNat_val_eq _ b0 (by omega), ofNat_val_eq _ b1 (by omega)]

/-- Decoding the two 6-bit values of one byte gives the byte back. -/
theorem quantumBytes_group1 (b0 : Byte) (v : Nat) (hv : v = b0.val <<< 16) :
    quantumBytes (v >>> 18 &&& 0x3F) (v >>> 12 &&& 0x3F) 0 0 2 = [b0] := by
  have h0 := b0.isLt
  rw [Nat.shiftLeft_eq] at hv
  simp only [quantumBytes, and_0x3F, Nat.shiftRight_eq_div_pow]
  rw [group4_eq _ _ _ _ (Nat.mod_lt _ (by norm_num)) (by norm_num) (by norm_num)]
  simp only [Nat.reduceSub, List.take_succ_cons, List.take_zero]
  rw [ofNat_val_eq _ b0 (by omega)]

/-! ## The alphabet tables -/

set_option maxRecDepth 100000 in
theorem decodeMap_stdChar (i : Nat) (h : i < 64) : decodeMap (stdChar i) = i := by
  have key : ∀ j : Fin 64, decodeMap (stdChar j.val) = j.val := by decide
  exact key ⟨i, h⟩

set_option maxRecDepth 100000 in
theorem stdChar_decodeMap (c : Byte) (h : decodeMap c ≠ 0xff) : stdChar (decodeMap c) = c := by
  have key : ∀ c : Byte, decodeMap c ≠ 0xff → stdChar (decodeMap c) = c := by decide
  exact key c h

set_option maxRecDepth 100000 in
theorem decodeMap_lt (c : Byte) (h : decodeMap c ≠ 0xff) : decodeMap c < 64 := by
  have key : ∀ c : Byte, decodeMap c ≠ 0xff → decodeMap c < 64 := by decide
  exact key c h

theorem decodeMap_padChar : decodeMap padChar = 0xff := by decide

theorem decodeMap_stdChar_ne (i : Nat) (h : i < 64) : decodeMap (stdChar i) ≠ 0xff := by
  rw [decodeMap_stdChar i h]; omega

/-! ## Unfolding the decoding loop -/

theorem decodeLoop_valid0 (c : Byte) (rest : List Byte) (si : Nat) (h : decodeMap c ≠ 0xff) :
    decodeLoop (c :: rest) si [] = decodeLoop rest (si + 1) [decodeMap c] := by
  simp only [decodeLoop, h, ne_eq, not_false_eq_true, if_true, List.nil_append]

theorem decodeLoop_valid1 (c : Byte) (rest : List Byte) (si d0 : Nat) (h : decodeMap c ≠ 0xff) :
    decodeLoop (c :: rest) si [d0] = decodeLoop rest (si + 1) [d0, decodeMap c] := by
  simp only [decodeLoop, h, ne_eq, not_false_eq_true, if_true, List.cons_append,
    List.nil_append]

theorem decodeLoop_valid2 (c : Byte) (rest : List Byte) (si d0 d1 : Nat)
    (h : decodeMap c ≠ 0xff) :
    decodeLoop (c :: rest) si [d0, d1] = decodeLoop rest (si + 1) [d0, d1, decodeMap c] := by
  simp only [decodeLoop, h, ne_eq, not_false_eq_true, if_true, List.cons_append,
    List.nil_append]

theorem decodeLoop_valid3 (c : Byte) (rest : List Byte) (si d0 d1 d2 : Nat)
    (h : decodeMap c ≠ 0xff) :
    decodeLoop (c :: rest) si [d0, d1, d2] =
      (quantumBytes d0 d1 d2 (decodeMap c) 4 ++ (decodeLoop rest (si + 1) []).1,
        (decodeLoop rest (si + 1) []).2) := by
  simp only [decodeLoop, h, ne_eq, not_false_eq_true, if_true]

theorem decodeLoop_quantum (s0 s1 s2 s3 : Nat) (h0 : s0 < 64) (h1 : s1 < 64) (h2 : s2 < 64)
    (h3 : s3 < 64) (rest : List Byte) (si : Nat) :
    decodeLoop (stdChar s0 :: stdChar s1 :: stdChar s2 :: stdChar s3 :: rest) si [] =
      (quantumBytes s0 s1 s2 s3 4 ++ (decodeLoop rest (si + 4) []).1,
        (decodeLoop rest (si + 4) []).2) := by
  rw [decodeLoop_valid0 _ _ _ (decodeMap_stdChar_ne s0 h0),
    decodeLoop_valid1 _ _ _ _ (decodeMap_stdChar_ne s1 h1),
    decodeLoop_valid2 _ _ _ _ _ (decodeMap_stdChar_ne s2 h2),
    decodeLoop_valid3 _ _ _ _ _ _ (decodeMap_stdChar_ne s3 h3),
    decodeMap_stdChar s0 h0, decodeMap_stdChar s1 h1, decodeMap_stdChar s2 h2,
    decodeMap_stdChar s3 h3]

/-- The text `XX==` of a one-byte remainder decodes to the quantum of its two values. -/
theorem decodeLoop_pad2 (s0 s1 : Nat) (h0 : s0 < 64) (h1 : s1 < 64) (si : Nat) :
    decodeLoop [stdChar s0, stdChar s1, padChar, padChar] si [] =
      (quantumBytes s0 s1 0 0 2, none) := by
  rw [decodeLoop_valid0 _ _ _ (decodeMap_stdChar_ne s0 h0),
    decodeLoop_valid1 _ _ _ _ (decodeMap_stdChar_ne s1 h1),
    decodeMap_stdChar s0 h0, decodeMap_stdChar s1 h1]
  have e61 : decodeMap 61 = 255 := decodeMap_padChar
  simp [decodeLoop, e61, skipNewlines, padChar]

/-- The text `XXX=` of a two-byte remainder decodes to the quantum of its three values. -/
theorem decodeLoop_pad1 (s0 s1 s2 : Nat) (h0 : s0 < 64) (h1 : s1 < 64) (h2 : s2 < 64)
    (si : Nat) :
    decodeLoop [stdChar s0, stdChar s1, stdChar s2, padChar] si [] =
      (quantumBytes s0 s1 s2 0 3, none) := by
  rw [decodeLoop_valid0 _ _ _ (decodeMap_stdChar_ne s0 h0),
    decodeLoop_valid1 _ _ _ _ (decodeMap_stdChar_ne s1 h1),
    decodeLoop_valid2 _ _ _ _ _ (decodeMap_stdChar_ne s2 h2),
    decodeMap_stdChar s0 h0, decodeMap_stdChar s1 h1, decodeMap_stdChar s2 h2]
  have e61 : decodeMap 61 = 255 := decodeMap_padChar
  simp [decodeLoop, e61, skipNewlines, padChar]

/-- The round trip from a given index: the encoding of `b` decodes to `b` without error. -/
theorem decodeLoop_EncodeToString (b : List Byte) :
    ∀ si : Nat, decodeLoop (EncodeToString b) si [] = (b, none) := by
  induction b using EncodeToString.induct with
  | case1 b0 b1 b2 rest ih =>
    intro si
    have hm : ∀ x : Nat, x &&& 0x3F < 64 := fun x => by rw [and_0x3F]; omega
    rw [EncodeToString, decodeLoop_quantum _ _ _ _ (hm _) (hm _) (hm _) (hm _), ih,
      quantumBytes_group3 b0 b1 b2 _ rfl]
    rfl
  | case2 b0 b1 =>
    intro si
    have hm : ∀ x : Nat, x &&& 0x3F < 64 := fun x => by rw [and_0x3F]; omega
    rw [EncodeToString, decodeLoop_pad1 _ _ _ (hm _) (hm _) (hm _),
      quantumBytes_group2 b0 b1 _ rfl]
  | case3 b0 =>
    intro si
    have hm : ∀ x : Nat, x &&& 0x3F < 64 := fun x => by rw [and_0x3F]; omega
    rw [EncodeToString, decodeLoop_pad2 _ _ (hm _) (hm _), quantumBytes_group1 b0 _ rfl]
  | case4 =>
    intro si
    simp [EncodeToString, decodeLoop]

/-! ## Inverting the decoding loop on a text without line breaks -/

theorem ofNat_val (a : Nat) : (Fin.ofNat a : Byte).val = a % 256 := rfl

theorem skipNewlines_of_noNewlines (t : List Byte) (si : Nat) (h : noNewlines t) :
    skipNewlines t si = (t, si) := by
  cases t with
  | nil => rfl
  | cons c rest =>
    have hc := h c (List.mem_cons_self _ _)
    simp [skipNewlines, hc.1, hc.2]

theorem noNewlines_tail {c : Byte} {t : List Byte} (h : noNewlines (c :: t)) : noNewlines t :=
  fun x hx => h x (List.mem_cons_of_mem _ hx)

theorem decodeLoop_nil_ne (si : Nat) (d : Nat) (ds : List Nat) :
    (decodeLoop [] si (d :: ds)).2 ≠ none := by
  simp [decodeLoop]

/-- A character outside the alphabet that is neither a line break nor the padding character
stops the loop with an error. -/
theorem decodeLoop_invalid (c : Byte) (rest : List Byte) (si : Nat) (dbuf : List Nat)
    (h : decodeMap c = 0xff) (hn : c ≠ 10 ∧ c ≠ 13) (hp : c ≠ padChar) :
    decodeLoop (c :: rest) si dbuf = ([], some si) := by
  simp [decodeLoop, h, hn.1, hn.2, hp]

theorem decodeLoop_pad_early0 (rest : List Byte) (si : Nat) :
    decodeLoop (padChar :: rest) si [] = ([], some si) := by
  have e61 : decodeMap 61 = 255 := decodeMap_padChar
  simp [decodeLoop, e61, padChar]

theorem decodeLoop_pad_early1 (rest : List Byte) (si d0 : Nat) :
    decodeLoop (padChar :: rest) si [d0] = ([], some si) := by
  have e61 : decodeMap 61 = 255 := decodeMap_padChar
  simp [decodeLoop, e61, padChar]

/-- Any character that is not in the alphabet gives an error when fewer than two values of
the quantum have been read (in a text without line breaks). -/
theorem decodeLoop_invalid_early (c : Byte) (rest : List Byte) (si : Nat) (dbuf : List Nat)
    (hd : dbuf = [] ∨ ∃ d0, dbuf = [d0]) (h : decodeMap c = 0xff) (hn : c ≠ 10 ∧ c ≠ 13) :
    (decodeLoop (c :: rest) si dbuf).2 ≠ none := by
  by_cases hp : c = padChar
  · subst hp
    rcases hd with rfl | ⟨d0, rfl⟩
    · rw [decodeLoop_pad_early0]; simp
    · rw [decodeLoop_pad_early1]; simp
  · rw [decodeLoop_invalid c rest si dbuf h hn hp]; simp

theorem decodeLoop_pad_at2 (rest : List Byte) (si d0 d1 : Nat) (hr : noNewlines rest) :
    decodeLoop (padChar :: rest) si [d0, d1] =
      match rest with
      | [] => ([], some (si + 1))
      | c2 :: rest2 =>
        if c2 ≠ padChar then ([], some si)
        else
          match rest2 with
          | [] => (quantumBytes d0 d1 0 0 2, none)
          | _ :: _ => (quantumBytes d0 d1 0 0 2, some (si + 2)) := by
  have e61 : decodeMap 61 = 255 := decodeMap_padChar
  cases rest with
  | nil => simp [decodeLoop, e61, padChar, skipNewlines]
  | cons c2 rest2 =>
    have h2 := skipNewlines_of_noNewlines _ (si + 1) hr
    have h3 := skipNewlines_of_noNewlines _ (si + 1 + 1) (noNewlines_tail hr)
    cases rest2 with
    | nil => simp [decodeLoop, e61, padChar, h2, h3]
    | cons c3 rest3 => simp [decodeLoop, e61, padChar, h2, h3]

theorem decodeLoop_pad_at3 (rest : List Byte) (si d0 d1 d2 : Nat) (hr : noNewlines rest) :
    decodeLoop (padChar :: rest) si [d0, d1, d2] =
      match rest with
      | [] => (quantumBytes d0 d1 d2 0 3, none)
      | _ :: _ => (quantumBytes d0 d1 d2 0 3, some (si + 1)) := by
  have e61 : decodeMap 61 = 255 := decodeMap_padChar
  have h2 := skipNewlines_of_noNewlines _ (si + 1) hr
  cases rest with
  | nil => simp [decodeLoop, e61, padChar, skipNewlines]
  | cons c2 rest2 => simp [decodeLoop, e61, padChar, h2]

/-- The shapes of a text without line breaks that the loop accepts from the start of a
quantum: empty, two characters and `==`, three characters and `=`, or four characters
followed by an accepted text. -/
theorem decodeLoop_inv (t : List Byte) (si : Nat) (b : List Byte)
    (h : decodeLoop t si [] = (b, none)) (hn : noNewlines t) :
    (t = [] ∧ b = []) ∨
    (∃ c0 c1, decodeMap c0 ≠ 0xff ∧ decodeMap c1 ≠ 0xff ∧ t = [c0, c1, padChar, padChar] ∧
      b = quantumBytes (decodeMap c0) (decodeMap c1) 0 0 2) ∨
    (∃ c0 c1 c2, decodeMap c0 ≠ 0xff ∧ decodeMap c1 ≠ 0xff ∧ decodeMap c2 ≠ 0xff ∧
      t = [c0, c1, c2, padChar] ∧
      b = quantumBytes (decodeMap c0) (decodeMap c1) (decodeMap c2) 0 3) ∨
    (∃ c0 c1 c2 c3 t4 b4 si4, decodeMap c0 ≠ 0xff ∧ decodeMap c1 ≠ 0xff ∧
      decodeMap c2 ≠ 0xff ∧ decodeMap c3 ≠ 0xff ∧ t = c0 :: c1 :: c2 :: c3 :: t4 ∧
      decodeLoop t4 si4 [] = (b4, none) ∧
      b = quantumBytes (decodeMap c0) (decodeMap c1) (decodeMap c2) (decodeMap c3) 4 ++ b4) := by
  cases t with
  | nil =>
    left
    simp only [decodeLoop, Prod.mk.injEq, and_true] at h
    exact ⟨rfl, h.symm⟩
  | cons c0 t1 =>
    right
    have hc0 := hn c0 (List.mem_cons_self _ _)
    have hn1 := noNewlines_tail hn
    by_cases v0 : decodeMap c0 = 0xff
    · exfalso
      have e := decodeLoop_invalid_early c0 t1 si [] (Or.inl rfl) v0 hc0
      rw [h] at e
      exact e rfl
    rw [decodeLoop_valid0 _ _ _ v0] at h
    cases t1 with
    | nil =>
      exfalso
      have e := decodeLoop_nil_ne (si + 1) (decodeMap c0) []
      rw [h] at e
      exact e rfl
    | cons c1 t2 =>
      have hc1 := hn1 c1 (List.mem_cons_self _ _)
      have hn2 := noNewlines_tail hn1
      by_cases v1 : decodeMap c1 = 0xff
      · exfalso
        have e := decodeLoop_invalid_early c1 t2 (si + 1) [decodeMap c0] (Or.inr ⟨_, rfl⟩) v1 hc1
        rw [h] at e
        exact e rfl
      rw [decodeLoop_valid1 _ _ _ _ v1] at h
      cases t2 with
      | nil =>
        exfalso
        have e := decodeLoop_nil_ne (si + 1 + 1) (decodeMap c0) [decodeMap c1]
        rw [h] at e
        exact e rfl
      | cons c2 t3 =>
        have hc2 := hn2 c2 (List.mem_cons_self _ _)
        have hn3 := noNewlines_tail hn2
        by_cases v2 : decodeMap c2 = 0xff
        · by_cases p2 : c2 = padChar
          · subst p2
            rw [decodeLoop_pad_at2 _ _ _ _ hn3] at h
            cases t3 with
            | nil => simp at h
            | cons c3 t4 =>
              by_cases p3 : c3 = padChar
              · subst p3
                cases t4 with
                | nil =>
                  simp only [ne_eq, not_true_eq_false, if_false, Prod.mk.injEq, and_true] at h
                  left
                  exact ⟨c0, c1, v0, v1, rfl, h.symm⟩
                | cons c4 t5 => simp at h
              · simp [p3] at h
          · rw [decodeLoop_invalid _ _ _ _ v2 hc2 p2] at h
            simp at h
        rw [decodeLoop_valid2 _ _ _ _ _ v2] at h
        cases t3 with
        | nil =>
          exfalso
          have e := decodeLoop_nil_ne (si + 1 + 1 + 1) (decodeMap c0) [decodeMap c1, decodeMap c2]
          rw [h] at e
          exact e rfl
        | cons c3 t4 =>
          have hc3 := hn3 c3 (List.mem_cons_self _ _)
          have hn4 := noNewlines_tail hn3
          by_cases v3 : decodeMap c3 = 0xff
          · by_cases p3 : c3 = padChar
            · subst p3
              rw [decodeLoop_pad_at3 _ _ _ _ _ hn4] at h
              cases t4 with
              | nil =>
                simp only [Prod.mk.injEq, and_true] at h
                right; left
                exact ⟨c0, c1, c2, v0, v1, v2, rfl, h.symm⟩
              | cons c4 t5 => simp at h
            · rw [decodeLoop_invalid _ _ _ _ v3 hc3 p3] at h
              simp at h
          rw [decodeLoop_valid3 _ _ _ _ _ _ v3] at h
          right; right
          simp only [Prod.mk.injEq] at h
          exact ⟨c0, c1, c2, c3, t4, (decodeLoop t4 (si + 1 + 1 + 1 + 1) []).1, si + 1 + 1 + 1 + 1,
            v0, v1, v2, v3, rfl, Prod.ext rfl h.2, h.1.symm⟩

/-- An accepted text without line breaks is empty or at least four characters long. -/
theorem accepted_length (t : List Byte) (si : Nat) (b : List Byte)
    (h : decodeLoop t si [] = (b, none)) (hn : noNewlines t) : t = [] ∨ 4 ≤ t.length := by
  rcases decodeLoop_inv t si b h hn with ⟨rfl, _⟩ | ⟨_, _, _, _, rfl, _⟩ |
    ⟨_, _, _, _, _, _, rfl, _⟩ | ⟨_, _, _, _, _, _, _, _, _, _, _, rfl, _⟩
  · exact Or.inl rfl
  · right; simp
  · right; simp
  · right; simp

/-! ## Re-encoding a decoded quantum -/

theorem encode_quantum4 (d0 d1 d2 d3 : Nat) (h0 : d0 < 64) (h1 : d1 < 64) (h2 : d2 < 64)
    (h3 : d3 < 64) (rest : List Byte) :
    EncodeToString (quantumBytes d0 d1 d2 d3 4 ++ rest) =
      stdChar d0 :: stdChar d1 :: stdChar d2 :: stdChar d3 :: EncodeToString rest := by
  simp only [quantumBytes, group4_eq _ _ _ _ h1 h2 h3, Nat.shiftRight_eq_div_pow, Nat.reduceSub,
    List.take_succ_cons, List.take_zero, List.cons_append, List.nil_append, EncodeToString,
    group3_eq]
  simp only [ofNat_val, and_0x3F]
  refine congrArg₂ List.cons (congrArg stdChar ?_) (congrArg₂ List.cons (congrArg stdChar ?_)
    (congrArg₂ List.cons (congrArg stdChar ?_) (congrArg₂ List.cons (congrArg stdChar ?_) rfl)))
  all_goals omega

theorem group2_eq (x y : Byte) : x.val <<< 16 ||| y.val <<< 8 = x.val * 65536 + y.val * 256 := by
  have hx := x.isLt
  have hy := y.isLt
  rw [Nat.shiftLeft_eq, Nat.shiftLeft_eq]
  exact or_eq_add_of_dvd 16 (by omega) (by omega)

theorem encode_quantum3 (d0 d1 d2 : Nat) (h0 : d0 < 64) (h1 : d1 < 64) (h2 : d2 < 64)
    (hz : d2 % 4 = 0) :
    EncodeToString (quantumBytes d0 d1 d2 0 3) = [stdChar d0, stdChar d1, stdChar d2, padChar] := by
  simp only [quantumBytes, group4_eq _ _ _ _ h1 h2 (by norm_num : 0 < 64),
    Nat.shiftRight_eq_div_pow, Nat.reduceSub,
    List.take_succ_cons, List.take_zero, EncodeToString, group2_eq]
  simp only [ofNat_val, and_0x3F]
  refine congrArg₂ List.cons (congrArg stdChar ?_) (congrArg₂ List.cons (congrArg stdChar ?_)
    (congrArg₂ List.cons (congrArg stdChar ?_) rfl))
  all_goals omega

theorem encode_quantum2 (d0 d1 : Nat) (h0 : d0 < 64) (h1 : d1 < 64) (hz : d1 % 16 = 0) :
    EncodeToString (quantumBytes d0 d1 0 0 2) = [stdChar d0, stdChar d1, padChar, padChar] := by
  simp only [quantumBytes, group4_eq _ _ _ _ h1 (by norm_num : 0 < 64) (by norm_num : 0 < 64),
    Nat.shiftRight_eq_div_pow, Nat.reduceSub, List.take_succ_cons, List.take_zero,
    EncodeToString]
  simp only [Nat.shiftLeft_eq]
  simp only [ofNat_val, and_0x3F]
  refine congrArg₂ List.cons (congrArg stdChar ?_) (congrArg₂ List.cons (congrArg stdChar ?_) rfl)
  all_goals omega

/-! ## The trailing bits -/

theorem zeroTrailingBits_cons (c : Byte) (t : List Byte) (h : 3 ≤ t.length) :
    zeroTrailingBits (c :: t) = zeroTrailingBits t := by
  unfold zeroTrailingBits
  rw [List.reverse_cons]
  have hl : 3 ≤ t.reverse.length := by simpa using h
  generalize t.reverse = r at hl
  match r, hl with
  | p :: q :: x :: l, _ => rfl

theorem zeroTrailingBits_pad2 (c0 c1 : Byte) :
    zeroTrailingBits [c0, c1, padChar, padChar] = decide (decodeMap c1 % 16 = 0) := by
  simp [zeroTrailingBits]

theorem zeroTrailingBits_pad1 (c0 c1 c2 : Byte) (h : c2 ≠ padChar) :
    zeroTrailingBits [c0, c1, c2, padChar] = decide (decodeMap c2 % 4 = 0) := by
  simp [zeroTrailingBits, h]

/-- Re-encoding what the loop decoded from a text without line breaks and with zero
trailing bits gives the text back. -/
theorem encode_decodeLoop : ∀ (n : Nat) (t : List Byte), t.length ≤ n → ∀ (si : Nat)
    (b : List Byte), decodeLoop t si [] = (b, none) → noNewlines t →
    zeroTrailingBits t = true → EncodeToString b = t := by
  intro n
  induction n with
  | zero =>
    intro t hlen si b h _ _
    have ht : t = [] := List.length_eq_zero.mp (Nat.le_zero.mp hlen)
    subst ht
    simp only [decodeLoop, Prod.mk.injEq, and_true] at h
    subst h
    rfl
  | succ n ih =>
    intro t hlen si b h hn hz
    rcases decodeLoop_inv t si b h hn with ⟨rfl, rfl⟩ | ⟨c0, c1, v0, v1, rfl, rfl⟩ |
      ⟨c0, c1, c2, v0, v1, v2, rfl, rfl⟩ | ⟨c0, c1, c2, c3, t4, b4, si4, v0, v1, v2, v3, rfl, h4, rfl⟩
    · rfl
    · rw [zeroTrailingBits_pad2] at hz
      rw [encode_quantum2 _ _ (decodeMap_lt _ v0) (decodeMap_lt _ v1) (of_decide_eq_true hz),
        stdChar_decodeMap _ v0, stdChar_decodeMap _ v1]
    · have p2 : c2 ≠ padChar := fun e => v2 (e ▸ decodeMap_padChar)
      rw [zeroTrailingBits_pad1 _ _ _ p2] at hz
      rw [encode_quantum3 _ _ _ (decodeMap_lt _ v0) (decodeMap_lt _ v1) (decodeMap_lt _ v2)
        (of_decide_eq_true hz), stdChar_decodeMap _ v0, stdChar_decodeMap _ v1,
        stdChar_decodeMap _ v2]
    · have hn4 : noNewlines t4 :=
        noNewlines_tail (noNewlines_tail (noNewlines_tail (noNewlines_tail hn)))
      have hz4 : zeroTrailingBits t4 = true := by
        rcases accepted_length t4 si4 b4 h4 hn4 with rfl | h4len
        · rfl
        · rw [zeroTrailingBits_cons _ _ (by simp only [List.length_cons]; omega),
            zeroTrailingBits_cons _ _ (by simp only [List.length_cons]; omega),
            zeroTrailingBits_cons _ _ (by simp only [List.length_cons]; omega),
            zeroTrailingBits_cons _ _ (by omega)] at hz
          exact hz
      have hlen4 : t4.length ≤ n := by
        simp only [List.length_cons] at hlen
        omega
      rw [encode_quantum4 _ _ _ _ (decodeMap_lt _ v0) (decodeMap_lt _ v1) (decodeMap_lt _ v2)
        (decodeMap_lt _ v3), stdChar_decodeMap _ v0, stdChar_decodeMap _ v1,
        stdChar_decodeMap _ v2, stdChar_decodeMap _ v3, ih t4 hlen4 si4 b4 h4 hn4 hz4]

/-! ## Lengths and digits -/

theorem Read_state (P : BoxPrimitives) (rand : RandRead) (data : EncryptedItemDataSourceModel) :
    (EncryptedItemDataSource.Read P rand data).State =
      some { data with
        EncryptedValueBase64 := some (EncodeToString (SealAnonymous P rand
          (DecodeString data.ContentBase64.ValueString).1
          (pkBytesOf (DecodeString data.PublicKeyBase64.ValueString).1)).1)
        Id := some (hexEncodeToString (sha1Sum (EncodeToString (SealAnonymous P rand
          (DecodeString data.ContentBase64.ValueString).1
          (pkBytesOf (DecodeString data.PublicKeyBase64.ValueString).1)).1)))
        ContentChecksum := some (hexEncodeToString (sha1Sum data.ContentBase64.ValueString)) } :=
  rfl

theorem computeState_fst (P : BoxPrimitives) (rand : RandRead) (data : EncryptedItemResourceModel)
    (diag : List Diagnostic) :
    (computeState P rand data diag).1 =
      { data with
        EncryptedValueBase64 := some (EncodeToString (SealAnonymous P rand
          (DecodeString data.ContentBase64.ValueString).1
          (pkBytesOf (DecodeString data.PublicKeyBase64.ValueString).1)).1)
        Id := some (hexEncodeToString (sha1Sum data.ContentBase64.ValueString)) } :=
  rfl

theorem sha1Sum_length (data : List Byte) : (sha1Sum data).length = 20 := by
  simp [sha1Sum, bePutUint32]

theorem hexEncodeToString_length (l : List Byte) :
    (hexEncodeToString l).length = 2 * l.length := by
  induction l with
  | nil => rfl
  | cons v rest ih => simp only [hexEncodeToString, List.length_cons, ih]; omega

theorem EncodeToString_length (b : List Byte) :
    (EncodeToString b).length = 4 * ((b.length + 2) / 3) := by
  induction b using EncodeToString.induct with
  | case1 b0 b1 b2 rest ih => simp only [EncodeToString, List.length_cons, ih]; omega
  | case2 b0 b1 => simp [EncodeToString]
  | case3 b0 => simp [EncodeToString]
  | case4 => rfl

theorem xorKeyStream_length (ks : Nat → Byte) (m : List Byte) :
    ∀ i : Nat, (xorKeyStream ks m i).length = m.length := by
  induction m with
  | nil => intro i; rfl
  | cons x rest ih => intro i; simp only [xorKeyStream, List.length_cons, ih]

theorem SealAnonymous_ok (P : BoxPrimitives) (r : FixedBytes 32) (message : List Byte)
    (recipient : FixedBytes 32) :
    (SealAnonymous P (.ok r) message recipient).2 = none ∧
      (SealAnonymous P (.ok r) message recipient).1.length = message.length + 48 := by
  refine ⟨rfl, ?_⟩
  simp only [SealAnonymous, secretboxSeal, List.length_append, xorKeyStream_length]
  rw [(P.scalarBaseMult r).property, (P.poly1305Sum _ _).property]
  omega

theorem hextable_lower (i : Nat) (h : i < 16) : isLowerHex (hextable.getD i 0) := by
  have key : ∀ j : Fin 16, isLowerHex (hextable.getD j.val 0) := by decide
  exact key ⟨i, h⟩

theorem hexEncodeToString_lower (l : List Byte) : ∀ c ∈ hexEncodeToString l, isLowerHex c := by
  induction l with
  | nil => intro c hc; simp [hexEncodeToString] at hc
  | cons v rest ih =>
    intro c hc
    have hv := v.isLt
    simp only [hexEncodeToString, List.mem_cons] at hc
    rcases hc with rfl | rfl | hc
    · exact hextable_lower _ (by rw [Nat.shiftRight_eq_div_pow]; omega)
    · exact hextable_lower _ (by rw [and_0x0f]; omega)
    · exact ih c hc

/-- A digest rendered in hexadecimal is forty lowercase hexadecimal digits. -/
theorem hex_sha1_shape (data : List Byte) :
    (hexEncodeToString (sha1Sum data)).length = 40 ∧
      ∀ c ∈ hexEncodeToString (sha1Sum data), isLowerHex c :=
  ⟨by rw [hexEncodeToString_length, sha1Sum_length], hexEncodeToString_lower _⟩

/-! ## The diagnostics of the two computations -/

theorem Read_diagnostics_ok (P : BoxPrimitives) (r : FixedBytes 32)
    (data : EncryptedItemDataSourceModel)
    (hc : (DecodeString data.ContentBase64.ValueString).2 = none)
    (hk : (DecodeString data.PublicKeyBase64.ValueString).2 = none) :
    (EncryptedItemDataSource.Read P (.ok r) data).Diagnostics = [] := by
  simp only [EncryptedItemDataSource.Read, SealAnonymous, hc, hk]

theorem computeState_diagnostics_ok (P : BoxPrimitives) (r : FixedBytes 32)
    (data : EncryptedItemResourceModel)
    (hc : (DecodeString data.ContentBase64.ValueString).2 = none)
    (hk : (DecodeString data.PublicKeyBase64.ValueString).2 = none) :
    (computeState P (.ok r) data []).2 = [] := by
  simp only [computeState, SealAnonymous, hc, hk]

theorem Read_diagnostics_bad_content (P : BoxPrimitives) (r : FixedBytes 32)
    (data : EncryptedItemDataSourceModel) (off : Nat)
    (hc : (DecodeString data.ContentBase64.ValueString).2 = some off)
    (hk : (DecodeString data.PublicKeyBase64.ValueString).2 = none) :
    (EncryptedItemDataSource.Read P (.ok r) data).Diagnostics =
      [⟨"Decode Error",
        "Unable to decode content_base64, got error: " ++ corruptInputError off⟩] := by
  simp [EncryptedItemDataSource.Read, SealAnonymous, hc, hk, AddError]

theorem Read_diagnostics_bad_key (P : BoxPrimitives) (r : FixedBytes 32)
    (data : EncryptedItemDataSourceModel) (off : Nat)
    (hc : (DecodeString data.ContentBase64.ValueString).2 = none)
    (hk : (DecodeString data.PublicKeyBase64.ValueString).2 = some off) :
    (EncryptedItemDataSource.Read P (.ok r) data).Diagnostics =
      [⟨"Decode Error",
        "Failed to decode base64 public_key_base64, got error: " ++ corruptInputError off⟩] := by
  simp [EncryptedItemDataSource.Read, SealAnonymous, hc, hk, AddError]

theorem computeState_diagnostics_bad_key (P : BoxPrimitives) (r : FixedBytes 32)
    (data : EncryptedItemResourceModel) (off : Nat)
    (hc : (DecodeString data.ContentBase64.ValueString).2 = none)
    (hk : (DecodeString data.PublicKeyBase64.ValueString).2 = some off) :
    (computeState P (.ok r) data []).2 =
      [⟨"Decode Error",
        "Failed to decode base64 public_key_base64, got error: " ++ corruptInputError off⟩] := by
  simp [computeState, SealAnonymous, hc, hk, AddError]

theorem computeState_diagnostics_bad_content (P : BoxPrimitives) (r : FixedBytes 32)
    (data : EncryptedItemResourceModel) (off : Nat)
    (hc : (DecodeString data.ContentBase64.ValueString).2 = some off)
    (hk : (DecodeString data.PublicKeyBase64.ValueString).2 = none) :
    (computeState P (.ok r) data []).2 =
      [⟨"Decode Error",
        "Unable to decode content_base64, got error: " ++ corruptInputError off⟩] := by
  simp [computeState, SealAnonymous, hc, hk, AddError]

/-! ## The claims -/

/-- C1: whatever the inputs, the data source `Read` reaches `State.Set`, and in the state it
stores `id` is the lowercase hexadecimal SHA-1 digest (40 characters) of the stored
`encrypted_value_base64` text and `content_checksum` is the lowercase hexadecimal SHA-1 digest
of the `content_base64` text as supplied, which is stored unchanged. For the content
`dGhlX3NlY3JldA==` the checksum is the digest of these 16 characters, which is not the
digest of the 10 bytes of `the_secret`. -/
theorem C1_read_fingerprints :
    (∀ (P : BoxPrimitives) (rand : RandRead) (data : EncryptedItemDataSourceModel),
      ∃ st encEnc, (EncryptedItemDataSource.Read P rand data).State = some st ∧
        st.EncryptedValueBase64 = some encEnc ∧
        st.Id = some (hexEncodeToString (sha1Sum encEnc)) ∧
        st.ContentChecksum = some (hexEncodeToString (sha1Sum data.ContentBase64.ValueString)) ∧
        st.ContentBase64 = data.ContentBase64 ∧
        (hexEncodeToString (sha1Sum encEnc)).length = 40 ∧
        (∀ c ∈ hexEncodeToString (sha1Sum encEnc), isLowerHex c) ∧
        (hexEncodeToString (sha1Sum data.ContentBase64.ValueString)).length = 40 ∧
        (∀ c ∈ hexEncodeToString (sha1Sum data.ContentBase64.ValueString), isLowerHex c)) ∧
    (∀ (P : BoxPrimitives) (rand : RandRead),
      (EncryptedItemDataSource.Read P rand testAccSodiumEncryptedItemDataSourceConfig).State.bind
          (fun st => st.ContentChecksum) =
        some (asciiBytes "5135d3e5fe14d710095f0060f120e2aaf9a4911a")) ∧
    hexEncodeToString (sha1Sum (asciiBytes "the_secret")) ≠
      asciiBytes "5135d3e5fe14d710095f0060f120e2aaf9a4911a" := by
  refine ⟨?_, ?_, ?_⟩
  · intro P rand data
    exact ⟨_, _, Read_state P rand data, rfl, rfl, rfl, rfl, (hex_sha1_shape _).1,
      (hex_sha1_shape _).2, (hex_sha1_shape _).1, (hex_sha1_shape _).2⟩
  · intro P rand
    rw [Read_state]
    have e : hexEncodeToString (sha1Sum testContentBase64) =
        asciiBytes "5135d3e5fe14d710095f0060f120e2aaf9a4911a" := by decide!
    simp only [Option.some_bind, testAccSodiumEncryptedItemDataSourceConfig,
      TfString.ValueString, Option.getD_some, e]
  · decide!

/-- C2, the code at the malformed text `not base64 !!` (with a working random source).
As content, beside the key of the acceptance test: the data source `Read` and the resource's
`computeState` both append the one diagnostic `Decode Error` and still go on: the empty
plaintext is sealed, `encrypted_value_base64` is set to the 64 characters encoding the 48
sealed bytes, `id` and `content_checksum` are set, and `Read` and `Create` pass the result
to `State.Set`. As public key, beside the content of the acceptance test: the same one
diagnostic, and the content is sealed for the all-zero key and stored with its
fingerprints. -/
theorem C2_malformed_content_still_computed (P : BoxPrimitives) (r : FixedBytes 32) :
    DecodeString malformedContent = ([], some 3) ∧
    ((EncryptedItemDataSource.Read P (.ok r) malformedConfig).Diagnostics.map (fun d => d.summary)
        = ["Decode Error"] ∧
      ∃ st encEnc, (EncryptedItemDataSource.Read P (.ok r) malformedConfig).State = some st ∧
        st.EncryptedValueBase64 = some encEnc ∧ encEnc.length = 64 ∧
        st.Id = some (hexEncodeToString (sha1Sum encEnc)) ∧
        st.ContentChecksum = some (asciiBytes "f5c48f275d07b2aefd0a8ea7a83c6a7435ed42e4")) ∧
    ((EncryptedItemResource.Create P (.ok r) malformedPlan).Diagnostics.map (fun d => d.summary)
        = ["Decode Error"] ∧
      ∃ st encEnc, (EncryptedItemResource.Create P (.ok r) malformedPlan).State = some st ∧
        st = (computeState P (.ok r) malformedPlan []).1 ∧
        st.EncryptedValueBase64 = some encEnc ∧ encEnc.length = 64 ∧
        st.Id = some (asciiBytes "f5c48f275d07b2aefd0a8ea7a83c6a7435ed42e4")) ∧
    ((EncryptedItemDataSource.Read P (.ok r) malformedKeyConfig).Diagnostics.map
        (fun d => d.summary) = ["Decode Error"] ∧
      ∃ st, (EncryptedItemDataSource.Read P (.ok r) malformedKeyConfig).State = some st ∧
        st.EncryptedValueBase64 = some (EncodeToString (SealAnonymous P (.ok r)
          (asciiBytes "the_secret") ⟨List.replicate 32 0, by simp⟩).1) ∧
        st.Id = some (hexEncodeToString (sha1Sum (EncodeToString (SealAnonymous P (.ok r)
          (asciiBytes "the_secret") ⟨List.replicate 32 0, by simp⟩).1))) ∧
        st.ContentChecksum = some (asciiBytes "5135d3e5fe14d710095f0060f120e2aaf9a4911a")) ∧
    ((computeState P (.ok r) malformedKeyPlan []).2.map (fun d => d.summary) = ["Decode Error"] ∧
      (computeState P (.ok r) malformedKeyPlan []).1.EncryptedValueBase64 =
        some (EncodeToString (SealAnonymous P (.ok r)
          (asciiBytes "the_secret") ⟨List.replicate 32 0, by simp⟩).1) ∧
      (computeState P (.ok r) malformedKeyPlan []).1.Id =
        some (asciiBytes "5135d3e5fe14d710095f0060f120e2aaf9a4911a")) := by
  have hd : DecodeString malformedContent = ([], some 3) := by decide
  have hk : (DecodeString testPublicKeyBase64).2 = none := by decide
  have hc : DecodeString testContentBase64 = (asciiBytes "the_secret", none) := by decide
  have hs : hexEncodeToString (sha1Sum malformedContent) =
      asciiBytes "f5c48f275d07b2aefd0a8ea7a83c6a7435ed42e4" := by decide!
  have ht : hexEncodeToString (sha1Sum testContentBase64) =
      asciiBytes "5135d3e5fe14d710095f0060f120e2aaf9a4911a" := by decide!
  have hlen : ∀ k : FixedBytes 32,
      (EncodeToString (SealAnonymous P (.ok r) [] k).1).length = 64 := by
    intro k
    rw [EncodeToString_length, (SealAnonymous_ok P r [] k).2]
    rfl
  have hz : pkBytesOf [] = ⟨List.replicate 32 0, by simp⟩ := rfl
  refine ⟨hd, ⟨?_, ?_⟩, ⟨?_, ?_⟩, ⟨?_, ?_⟩, ⟨?_, ?_, ?_⟩⟩
  · rw [Read_diagnostics_bad_content P r malformedConfig 3 (by rw [show
      malformedConfig.ContentBase64.ValueString = malformedContent from rfl, hd]) hk]
    rfl
  · refine ⟨_, _, Read_state P (.ok r) malformedConfig, rfl, ?_, rfl, ?_⟩
    · rw [show malformedConfig.ContentBase64.ValueString = malformedContent from rfl, hd]
      exact hlen _
    · exact congrArg some hs
  · show ((computeState P (.ok r) malformedPlan []).2).map (fun d => d.summary) = _
    rw [computeState_diagnostics_bad_content P r malformedPlan 3 (by rw [show
      malformedPlan.ContentBase64.ValueString = malformedContent from rfl, hd]) hk]
    rfl
  · refine ⟨(computeState P (.ok r) malformedPlan []).1,
      EncodeToString (SealAnonymous P (.ok r) (DecodeString malformedContent).1
        (pkBytesOf (DecodeString testPublicKeyBase64).1)).1, rfl, rfl, rfl, ?_, ?_⟩
    · rw [hd]
      exact hlen _
    · rw [computeState_fst]
      exact congrArg some hs
  · rw [Read_diagnostics_bad_key P r malformedKeyConfig 3 (by rw [show
      malformedKeyConfig.ContentBase64.ValueString = testContentBase64 from rfl, hc]) (by rw [show
      malformedKeyConfig.PublicKeyBase64.ValueString = malformedContent from rfl, hd])]
    rfl
  · refine ⟨_, Read_state P (.ok r) malformedKeyConfig, ?_, ?_, ?_⟩
    · show some (EncodeToString (SealAnonymous P (.ok r) (DecodeString testContentBase64).1
        (pkBytesOf (DecodeString malformedContent).1)).1) = _
      rw [hc, hd, hz]
    · show some (hexEncodeToString (sha1Sum (EncodeToString (SealAnonymous P (.ok r)
        (DecodeString testContentBase64).1 (pkBytesOf (DecodeString malformedContent).1)).1))) = _
      rw [hc, hd, hz]
    · exact congrArg some ht
  · rw [computeState_diagnostics_bad_key P r malformedKeyPlan 3 (by rw [show
      malformedKeyPlan.ContentBase64.ValueString = testContentBase64 from rfl, hc]) (by rw [show
      malformedKeyPlan.PublicKeyBase64.ValueString = malformedContent from rfl, hd])]
    rfl
  · rw [computeState_fst]
    show some (EncodeToString (SealAnonymous P (.ok r) (DecodeString testContentBase64).1
      (pkBytesOf (DecodeString malformedContent).1)).1) = _
    rw [hc, hd, hz]
  · rw [computeState_fst]
    exact congrArg some ht

/-- C3 as stated fails: with the inputs of the acceptance test (and the stand-in primitives,
random bytes all 7) `computeState` stores the 80-character `encrypted_value_base64` shown,
whose digest is `c62e2766...`, while the `id` it stores is `5135d3e5...`, the digest of
`content_base64`. -/
theorem C3_counterexample :
    (computeState plainPrimitives (constRand 7) testPlan []).1.EncryptedValueBase64 =
      some (asciiBytes
        "BwcHBwcHBwcHBwcHBwcHBwcHBwcHBwcHBwcHBwcHBwcAAAAAAAAAAAAAAAAAAAAAdGhlX3NlY3JldA==") ∧
    (computeState plainPrimitives (constRand 7) testPlan []).1.Id =
      some (asciiBytes "5135d3e5fe14d710095f0060f120e2aaf9a4911a") ∧
    hexEncodeToString (sha1Sum (asciiBytes
        "BwcHBwcHBwcHBwcHBwcHBwcHBwcHBwcHBwcHBwcHBwcAAAAAAAAAAAAAAAAAAAAAdGhlX3NlY3JldA==")) =
      asciiBytes "c62e27667ca04661eb6ecd7d06ba649d088db5e9" ∧
    ¬ (∀ (P : BoxPrimitives) (rand : RandRead) (data : EncryptedItemResourceModel),
        ∃ encEnc, (computeState P rand data []).1.EncryptedValueBase64 = some encEnc ∧
          (computeState P rand data []).1.Id = some (hexEncodeToString (sha1Sum encEnc))) := by
  have e1 : (computeState plainPrimitives (constRand 7) testPlan []).1.EncryptedValueBase64 =
      some (asciiBytes
        "BwcHBwcHBwcHBwcHBwcHBwcHBwcHBwcHBwcHBwcHBwcAAAAAAAAAAAAAAAAAAAAAdGhlX3NlY3JldA==") := by
    decide!
  have e2 : (computeState plainPrimitives (constRand 7) testPlan []).1.Id =
      some (asciiBytes "5135d3e5fe14d710095f0060f120e2aaf9a4911a") := by decide!
  have e3 : hexEncodeToString (sha1Sum (asciiBytes
        "BwcHBwcHBwcHBwcHBwcHBwcHBwcHBwcHBwcHBwcHBwcAAAAAAAAAAAAAAAAAAAAAdGhlX3NlY3JldA==")) =
      asciiBytes "c62e27667ca04661eb6ecd7d06ba649d088db5e9" := by decide!
  refine ⟨e1, e2, e3, ?_⟩
  intro h
  obtain ⟨encEnc, h1, h2⟩ := h plainPrimitives (constRand 7) testPlan
  rw [e1] at h1
  rw [e2, ← Option.some.inj h1, e3] at h2
  revert h2
  decide

/-- C3, amended: in the model that `computeState` returns (and that `Create` and `Update`
pass to `State.Set`), `id` is the hexadecimal SHA-1 digest of the `content_base64` text of
the request, while `encrypted_value_base64` is the encoding of the fresh seal; the two
request attributes are left as they were. -/
theorem C3_resource_id_is_content_digest (P : BoxPrimitives) (rand : RandRead)
    (data : EncryptedItemResourceModel) (diag : List Diagnostic) :
    (computeState P rand data diag).1.Id =
      some (hexEncodeToString (sha1Sum data.ContentBase64.ValueString)) ∧
    (computeState P rand data diag).1.EncryptedValueBase64 =
      some (EncodeToString (SealAnonymous P rand (DecodeString data.ContentBase64.ValueString).1
        (pkBytesOf (DecodeString data.PublicKeyBase64.ValueString).1)).1) ∧
    (computeState P rand data diag).1.ContentBase64 = data.ContentBase64 ∧
    (computeState P rand data diag).1.PublicKeyBase64 = data.PublicKeyBase64 ∧
    (EncryptedItemResource.Create P rand data).State = some (computeState P rand data []).1 ∧
    (∀ prior, (EncryptedItemResource.Update P rand ⟨data, prior⟩).State =
      some (computeState P rand data []).1) :=
  ⟨rfl, rfl, rfl, rfl, rfl, fun _ => rfl⟩

/-- C4: the array `pkBytes` handed to the seal is the decoded key itself when it has 32
bytes, the key followed by zero bytes up to 32 when it is shorter (32 zero bytes for the
empty key) and its first 32 bytes when it is longer; it always has 32 bytes, it is the key
both `Read` and `computeState` seal with, and when both texts decode and the random source
works neither operation appends a diagnostic, whatever the length of the key. -/
theorem C4_key_padding (key : List Byte) :
    (key.length = 32 → (pkBytesOf key).val = key) ∧
    (key.length < 32 → (pkBytesOf key).val = key ++ List.replicate (32 - key.length) 0) ∧
    (32 < key.length → (pkBytesOf key).val = key.take 32) ∧
    (pkBytesOf []).val = List.replicate 32 0 ∧
    (pkBytesOf key).val.length = 32 ∧
    (∀ (P : BoxPrimitives) (rand : RandRead) (data : EncryptedItemDataSourceModel),
      (DecodeString data.PublicKeyBase64.ValueString).1 = key →
      (EncryptedItemDataSource.Read P rand data).State.bind (fun st => st.EncryptedValueBase64) =
        some (EncodeToString (SealAnonymous P rand
          (DecodeString data.ContentBase64.ValueString).1 (pkBytesOf key)).1)) ∧
    (∀ (P : BoxPrimitives) (rand : RandRead) (data : EncryptedItemResourceModel),
      (DecodeString data.PublicKeyBase64.ValueString).1 = key →
      (computeState P rand data []).1.EncryptedValueBase64 =
        some (EncodeToString (SealAnonymous P rand
          (DecodeString data.ContentBase64.ValueString).1 (pkBytesOf key)).1)) ∧
    (∀ (P : BoxPrimitives) (r : FixedBytes 32) (data : EncryptedItemDataSourceModel),
      DecodeString data.PublicKeyBase64.ValueString = (key, none) →
      (DecodeString data.ContentBase64.ValueString).2 = none →
      (EncryptedItemDataSource.Read P (.ok r) data).Diagnostics = []) ∧
    (∀ (P : BoxPrimitives) (r : FixedBytes 32) (data : EncryptedItemResourceModel),
      DecodeString data.PublicKeyBase64.ValueString = (key, none) →
      (DecodeString data.ContentBase64.ValueString).2 = none →
      (computeState P (.ok r) data []).2 = []) := by
  refine ⟨?_, ?_, ?_, rfl, (pkBytesOf key).property, ?_, ?_, ?_, ?_⟩
  · intro h
    show copy (List.replicate 32 0) key = key
    simp only [copy, List.length_replicate, List.drop_replicate, h, Nat.sub_self,
      List.replicate_zero, List.append_nil]
    exact List.take_of_length_le (by omega)
  · intro h
    show copy (List.replicate 32 0) key = key ++ List.replicate (32 - key.length) 0
    simp only [copy, List.length_replicate, List.drop_replicate]
    rw [List.take_of_length_le (by omega)]
  · intro h
    show copy (List.replicate 32 0) key = key.take 32
    simp only [copy, List.length_replicate, List.drop_replicate]
    rw [show 32 - key.length = 0 by omega]
    simp
  · intro P rand data hk
    rw [Read_state, ← hk]
    rfl
  · intro P rand data hk
    rw [computeState_fst, ← hk]
  · intro P r data hk hc
    exact Read_diagnostics_ok P r data hc (by rw [hk])
  · intro P r data hk hc
    exact computeState_diagnostics_ok P r data hc (by rw [hk])

/-- C4 at concrete keys: a 3-byte key is followed by 29 zero bytes, a 33-byte key loses
its last byte, the 32-byte key of the acceptance test is taken as it is, and `Read` on the
test configuration appends no diagnostic. -/
theorem C4_key_padding_witness :
    (([1, 2, 3] : List Byte).length < 32 ∧
      (pkBytesOf [1, 2, 3]).val = [1, 2, 3] ++ List.replicate 29 0) ∧
    (32 < (List.replicate 33 (9 : Byte)).length ∧
      (pkBytesOf (List.replicate 33 9)).val = List.replicate 32 9) ∧
    ((DecodeString testPublicKeyBase64).1.length = 32 ∧
      (pkBytesOf (DecodeString testPublicKeyBase64).1).val = (DecodeString testPublicKeyBase64).1) ∧
    (EncryptedItemDataSource.Read plainPrimitives (constRand 7)
      testAccSodiumEncryptedItemDataSourceConfig).Diagnostics = [] :=
  ⟨⟨by decide, (C4_key_padding [1, 2, 3]).2.1 (by decide)⟩,
    ⟨by decide, (C4_key_padding (List.replicate 33 9)).2.2.1 (by decide)⟩,
    ⟨by decide, (C4_key_padding (DecodeString testPublicKeyBase64).1).1 (by decide)⟩,
    (C4_key_padding (DecodeString testPublicKeyBase64).1).2.2.2.2.2.2.2.1 plainPrimitives
      ⟨List.replicate 32 7, by simp⟩ testAccSodiumEncryptedItemDataSourceConfig
      (by decide) (by decide)⟩

/-- C5 as stated fails: let the stored item be what `Create` wrote for the inputs of the
acceptance test (stand-in primitives, random bytes all 1). `Update` with the same two
request attributes (random bytes all 2) seals again and writes a state that differs from the
stored one: `encrypted_value_base64` has changed. -/
theorem C5_counterexample :
    (EncryptedItemResource.Create plainPrimitives (constRand 1) testPlan).State =
      some { testPlan with
        EncryptedValueBase64 := some (asciiBytes
          "AQEBAQEBAQEBAQEBAQEBAQEBAQEBAQEBAQEBAQEBAQEAAAAAAAAAAAAAAAAAAAAAdGhlX3NlY3JldA==")
        Id := some (asciiBytes "5135d3e5fe14d710095f0060f120e2aaf9a4911a") } ∧
    (EncryptedItemResource.Update plainPrimitives (constRand 2)
        ⟨testPlan, { testPlan with
          EncryptedValueBase64 := some (asciiBytes
            "AQEBAQEBAQEBAQEBAQEBAQEBAQEBAQEBAQEBAQEBAQEAAAAAAAAAAAAAAAAAAAAAdGhlX3NlY3JldA==")
          Id := some (asciiBytes "5135d3e5fe14d710095f0060f120e2aaf9a4911a") }⟩).State =
      some { testPlan with
        EncryptedValueBase64 := some (asciiBytes
          "AgICAgICAgICAgICAgICAgICAgICAgICAgICAgICAgIAAAAAAAAAAAAAAAAAAAAAdGhlX3NlY3JldA==")
        Id := some (asciiBytes "5135d3e5fe14d710095f0060f120e2aaf9a4911a") } ∧
    ¬ (∀ (P : BoxPrimitives) (rand : RandRead) (req : UpdateRequest),
        req.Plan.PublicKeyBase64 = req.State.PublicKeyBase64 →
        req.Plan.ContentBase64 = req.State.ContentBase64 →
        (EncryptedItemResource.Update P rand req).State = some req.State) := by
  have e1 : (EncryptedItemResource.Create plainPrimitives (constRand 1) testPlan).State =
      some { testPlan with
        EncryptedValueBase64 := some (asciiBytes
          "AQEBAQEBAQEBAQEBAQEBAQEBAQEBAQEBAQEBAQEBAQEAAAAAAAAAAAAAAAAAAAAAdGhlX3NlY3JldA==")
        Id := some (asciiBytes "5135d3e5fe14d710095f0060f120e2aaf9a4911a") } := by decide!
  have e2 : (EncryptedItemResource.Update plainPrimitives (constRand 2)
        ⟨testPlan, { testPlan with
          EncryptedValueBase64 := some (asciiBytes
            "AQEBAQEBAQEBAQEBAQEBAQEBAQEBAQEBAQEBAQEBAQEAAAAAAAAAAAAAAAAAAAAAdGhlX3NlY3JldA==")
          Id := some (asciiBytes "5135d3e5fe14d710095f0060f120e2aaf9a4911a") }⟩).State =
      some { testPlan with
        EncryptedValueBase64 := some (asciiBytes
          "AgICAgICAgICAgICAgICAgICAgICAgICAgICAgICAgIAAAAAAAAAAAAAAAAAAAAAdGhlX3NlY3JldA==")
        Id := some (asciiBytes "5135d3e5fe14d710095f0060f120e2aaf9a4911a") } := by decide!
  refine ⟨e1, e2, ?_⟩
  intro h
  have h2 := h plainPrimitives (constRand 2) ⟨testPlan, { testPlan with
          EncryptedValueBase64 := some (asciiBytes
            "AQEBAQEBAQEBAQEBAQEBAQEBAQEBAQEBAQEBAQEBAQEAAAAAAAAAAAAAAAAAAAAAdGhlX3NlY3JldA==")
          Id := some (asciiBytes "5135d3e5fe14d710095f0060f120e2aaf9a4911a") }⟩ rfl rfl
  rw [e2] at h2
  revert h2
  decide

/-- C5, amended: `Update` never consults the stored state: it is `Create` on the plan, so the
seal is computed again with the randomness of this call. When the request repeats the stored
`public_key_base64` and `content_base64` and the stored `id` is the one `computeState` gave,
the new state keeps these three attributes, and its `encrypted_value_base64` is the encoding
of the new seal. -/
theorem C5_update_recomputes (P : BoxPrimitives) (rand : RandRead) (req : UpdateRequest)
    (hk : req.Plan.PublicKeyBase64 = req.State.PublicKeyBase64)
    (hc : req.Plan.ContentBase64 = req.State.ContentBase64)
    (hid : req.State.Id =
      some (hexEncodeToString (sha1Sum req.State.ContentBase64.ValueString))) :
    EncryptedItemResource.Update P rand req = EncryptedItemResource.Create P rand req.Plan ∧
    ∃ st, (EncryptedItemResource.Update P rand req).State = some st ∧
      st.PublicKeyBase64 = req.State.PublicKeyBase64 ∧
      st.ContentBase64 = req.State.ContentBase64 ∧
      st.Id = req.State.Id ∧
      st.EncryptedValueBase64 = some (EncodeToString (SealAnonymous P rand
        (DecodeString req.State.ContentBase64.ValueString).1
        (pkBytesOf (DecodeString req.State.PublicKeyBase64.ValueString).1)).1) := by
  refine ⟨rfl, (computeState P rand req.Plan []).1, rfl, ?_, ?_, ?_, ?_⟩
  · exact hk
  · exact hc
  · rw [hid, ← hc]
    rfl
  · rw [← hc, ← hk]
    rfl

/-- C5, amended, at the stored item of the counterexample: the three attributes are kept and
the encrypted value is that of the new seal. -/
theorem C5_update_recomputes_witness :
    ∃ st, (EncryptedItemResource.Update plainPrimitives (constRand 2)
        ⟨testPlan, { testPlan with
          EncryptedValueBase64 := some (asciiBytes
            "AQEBAQEBAQEBAQEBAQEBAQEBAQEBAQEBAQEBAQEBAQEAAAAAAAAAAAAAAAAAAAAAdGhlX3NlY3JldA==")
          Id := some (asciiBytes "5135d3e5fe14d710095f0060f120e2aaf9a4911a") }⟩).State = some st ∧
      st.PublicKeyBase64 = some testPublicKeyBase64 ∧
      st.ContentBase64 = some testContentBase64 ∧
      st.Id = some (asciiBytes "5135d3e5fe14d710095f0060f120e2aaf9a4911a") ∧
      st.EncryptedValueBase64 = some (EncodeToString (SealAnonymous plainPrimitives (constRand 2)
        (DecodeString testContentBase64).1 (pkBytesOf (DecodeString testPublicKeyBase64).1)).1) :=
  (C5_update_recomputes plainPrimitives (constRand 2)
    ⟨testPlan, { testPlan with
      EncryptedValueBase64 := some (asciiBytes
        "AQEBAQEBAQEBAQEBAQEBAQEBAQEBAQEBAQEBAQEBAQEAAAAAAAAAAAAAAAAAAAAAdGhlX3NlY3JldA==")
      Id := some (asciiBytes "5135d3e5fe14d710095f0060f120e2aaf9a4911a") }⟩
    rfl rfl (by decide!)).2

/-- C6: the resource `Read` writes back the prior state as it is, all four attributes, and
appends no diagnostic; nothing is computed. -/
theorem C6_resource_read_verbatim (state : EncryptedItemResourceModel) :
    (EncryptedItemResource.Read state).State = some state ∧
    (EncryptedItemResource.Read state).Diagnostics = [] ∧
    (EncryptedItemResource.Read state).State.map (fun st =>
        (st.PublicKeyBase64, st.ContentBase64, st.EncryptedValueBase64, st.Id)) =
      some (state.PublicKeyBase64, state.ContentBase64, state.EncryptedValueBase64, state.Id) :=
  ⟨rfl, rfl, rfl⟩

/-- C7: when the random source delivers its 32 bytes, `SealAnonymous` succeeds for every
plaintext `p` (the empty one included) and every 32-byte key, and the sealed bytes number
`len(p) + 48`; the `encrypted_value_base64` that the data source `Read` and `computeState`
store is the base64 encoding of these bytes, a text of `4 * ceil((len(p) + 48) / 3)`
characters. -/
theorem C7_seal_length (P : BoxPrimitives) (r : FixedBytes 32) :
    (∀ (p : List Byte) (k : FixedBytes 32),
      (SealAnonymous P (.ok r) p k).2 = none ∧
      (SealAnonymous P (.ok r) p k).1.length = p.length + 48) ∧
    (∀ k : FixedBytes 32, (SealAnonymous P (.ok r) [] k).1.length = 48) ∧
    (∀ data : EncryptedItemDataSourceModel,
      ∃ enc, enc.length = (DecodeString data.ContentBase64.ValueString).1.length + 48 ∧
        (EncryptedItemDataSource.Read P (.ok r) data).State.bind
          (fun st => st.EncryptedValueBase64) = some (EncodeToString enc) ∧
        (EncodeToString enc).length =
          4 * (((DecodeString data.ContentBase64.ValueString).1.length + 48 + 2) / 3)) ∧
    (∀ (data : EncryptedItemResourceModel) (diag : List Diagnostic),
      ∃ enc, enc.length = (DecodeString data.ContentBase64.ValueString).1.length + 48 ∧
        (computeState P (.ok r) data diag).1.EncryptedValueBase64 = some (EncodeToString enc) ∧
        (EncodeToString enc).length =
          4 * (((DecodeString data.ContentBase64.ValueString).1.length + 48 + 2) / 3)) := by
  refine ⟨fun p k => SealAnonymous_ok P r p k, fun k => (SealAnonymous_ok P r [] k).2, ?_, ?_⟩
  · intro data
    refine ⟨(SealAnonymous P (.ok r) (DecodeString data.ContentBase64.ValueString).1
      (pkBytesOf (DecodeString data.PublicKeyBase64.ValueString).1)).1,
      (SealAnonymous_ok P r _ _).2, ?_, ?_⟩
    · rw [Read_state]
      rfl
    · rw [EncodeToString_length, (SealAnonymous_ok P r _ _).2]
  · intro data diag
    refine ⟨(SealAnonymous P (.ok r) (DecodeString data.ContentBase64.ValueString).1
      (pkBytesOf (DecodeString data.PublicKeyBase64.ValueString).1)).1,
      (SealAnonymous_ok P r _ _).2, ?_, ?_⟩
    · rw [computeState_fst]
    · rw [EncodeToString_length, (SealAnonymous_ok P r _ _).2]

/-- C8: for every byte sequence `b`, the empty one included, decoding the padded standard
base64 encoding of `b` succeeds (no error) and returns exactly `b`. -/
theorem C8_decode_encode (b : List Byte) : DecodeString (EncodeToString b) = (b, none) :=
  decodeLoop_EncodeToString b 0

/-- C9 as stated fails: the decoder accepts `QR==`, whose last character carries non-zero
unused bits, and `QQ==\n`, which holds a line break; both decode to the byte `A`, whose
encoding is `QQ==`. So three distinct accepted texts decode to the same bytes, and
`encode(decode(t))` is not `t` for two of them. -/
theorem C9_counterexample :
    DecodeString (asciiBytes "QR==") = ([65], none) ∧
    DecodeString (asciiBytes "QQ==\n") = ([65], none) ∧
    DecodeString (asciiBytes "QQ==") = ([65], none) ∧
    EncodeToString [65] = asciiBytes "QQ==" ∧
    EncodeToString (DecodeString (asciiBytes "QR==")).1 ≠ asciiBytes "QR==" ∧
    EncodeToString (DecodeString (asciiBytes "QQ==\n")).1 ≠ asciiBytes "QQ==\n" ∧
    ¬ (∀ t b : List Byte, DecodeString t = (b, none) → EncodeToString b = t) := by
  refine ⟨by decide, by decide, by decide, by decide, by decide, by decide, ?_⟩
  intro h
  have h2 := h (asciiBytes "QR==") [65] (by decide)
  revert h2
  decide

/-- C9, amended: for every text `t` that the decoder accepts, that holds no `\r` or `\n` and
whose last character before the padding has its unused bits zero, `encode(decode(t)) = t`. -/
theorem C9_encode_decode_canonical (t b : List Byte) (h : DecodeString t = (b, none))
    (hn : noNewlines t) (hz : zeroTrailingBits t = true) : EncodeToString b = t :=
  encode_decodeLoop t.length t (Nat.le_refl _) 0 b h hn hz

/-- C9, amended, at the content of the acceptance test. -/
theorem C9_encode_decode_canonical_witness :
    DecodeString testContentBase64 = (asciiBytes "the_secret", none) ∧
    noNewlines testContentBase64 ∧ zeroTrailingBits testContentBase64 = true ∧
    EncodeToString (asciiBytes "the_secret") = testContentBase64 :=
  ⟨by decide, by decide!, by decide,
    C9_encode_decode_canonical testContentBase64 (asciiBytes "the_secret") (by decide)
      (by decide!) (by decide)⟩

/-- C10 as stated fails: for the configuration of the acceptance test there are no
primitives and no random outcome for which `Read` stores the `id` `encrypted_item-id`. -/
theorem C10_counterexample :
    ¬ ∃ (P : BoxPrimitives) (rand : RandRead) (st : EncryptedItemDataSourceModel),
      (EncryptedItemDataSource.Read P rand testAccSodiumEncryptedItemDataSourceConfig).State =
        some st ∧ st.Id = some (asciiBytes "encrypted_item-id") := by
  rintro ⟨P, rand, st, hst, hid⟩
  rw [Read_state] at hst
  have e := Option.some.inj hst
  subst e
  have hlen := congrArg (fun o => o.map List.length) hid
  simp only [Option.map_some', (hex_sha1_shape _).1] at hlen
  revert hlen
  decide

/-- C10, amended: for the configuration of the acceptance test, `Read` decodes the key to 32
bytes and the content to the 10 bytes of `the_secret` without error, and the `id` it stores
is the 40-character lowercase hexadecimal SHA-1 digest of the stored
`encrypted_value_base64`, hence not the 17-character `encrypted_item-id`; with a working
random source there is no diagnostic and the encrypted text has 80 characters. -/
theorem C10_test_config_id (P : BoxPrimitives) (rand : RandRead) :
    DecodeString testContentBase64 = (asciiBytes "the_secret", none) ∧
    (DecodeString testPublicKeyBase64).2 = none ∧
    (DecodeString testPublicKeyBase64).1.length = 32 ∧
    (∃ st encEnc,
      (EncryptedItemDataSource.Read P rand testAccSodiumEncryptedItemDataSourceConfig).State =
        some st ∧
      st.EncryptedValueBase64 = some encEnc ∧
      st.Id = some (hexEncodeToString (sha1Sum encEnc)) ∧
      (hexEncodeToString (sha1Sum encEnc)).length = 40 ∧
      (∀ c ∈ hexEncodeToString (sha1Sum encEnc), isLowerHex c) ∧
      st.Id ≠ some (asciiBytes "encrypted_item-id")) ∧
    (∀ r : FixedBytes 32,
      (EncryptedItemDataSource.Read P (.ok r)
        testAccSodiumEncryptedItemDataSourceConfig).Diagnostics = [] ∧
      ∃ encEnc, (EncryptedItemDataSource.Read P (.ok r)
        testAccSodiumEncryptedItemDataSourceConfig).State.bind
          (fun st => st.EncryptedValueBase64) = some encEnc ∧ encEnc.length = 80) := by
  have hc : DecodeString testContentBase64 = (asciiBytes "the_secret", none) := by decide
  have hk : (DecodeString testPublicKeyBase64).2 = none := by decide
  refine ⟨hc, hk, by decide, ?_, ?_⟩
  · refine ⟨_, _, Read_state P rand _, rfl, rfl, (hex_sha1_shape _).1, (hex_sha1_shape _).2, ?_⟩
    intro hid
    have hlen := congrArg (fun o => o.map List.length) hid
    simp only [Option.map_some', (hex_sha1_shape _).1] at hlen
    revert hlen
    decide
  · intro r
    refine ⟨Read_diagnostics_ok P r _ (by
      rw [show testAccSodiumEncryptedItemDataSourceConfig.ContentBase64.ValueString =
        testContentBase64 from rfl, hc]) hk,
      EncodeToString (SealAnonymous P (.ok r)
        (DecodeString testAccSodiumEncryptedItemDataSourceConfig.ContentBase64.ValueString).1
        (pkBytesOf (DecodeString
          testAccSodiumEncryptedItemDataSourceConfig.PublicKeyBase64.ValueString).1)).1, ?_, ?_⟩
    · rw [Read_state]
      rfl
    · rw [EncodeToString_length, (SealAnonymous_ok P r _ _).2,
        show testAccSodiumEncryptedItemDataSourceConfig.ContentBase64.ValueString =
          testContentBase64 from rfl, hc]
      rfl

end Sodium
